import Mathlib

/-!
Shallow embedding of the application-bundling pipeline of
`tools/bundle.py` (flipper-application-catalog), together with proofs of
the spec's claims about it.

Conventions:
* Filesystem paths are lists of path components (`List String`);
  `pathlib`'s `is_relative_to` is component-prefix containment of the
  fully resolved path.
* Machine side effects (cloning, checkout) are recorded in explicit
  effect traces; fallible code returns `Option`/`Except` errors.
* Python falsiness of `""` and `[]` is modelled by explicit emptiness
  tests.
-/

namespace Bundler

/-! ## PathGuard: `AppBundler._validate_path` (bundle.py lines 270-275) -/

/-- The two errors `_validate_path` can raise: `Path not found` and
`Path traversal detected`. -/
inductive PathError where
  | notFound
  | traversal
deriving DecidableEq, Repr

/-- Abstract filesystem: which paths exist, and how a path fully
resolves (following `..` and symlinks, as `pathlib.Path.resolve`). -/
structure FileSystem where
  pathExists : List String → Bool
  resolve : List String → List String

/-- `pathlib.Path.is_relative_to`: after resolution, `root`'s
components are a prefix of the path's components. -/
def isRelativeTo (p root : List String) : Bool :=
  root.isPrefixOf p

/-- `AppBundler._validate_path(path)`:
first `path.exists()` is checked (raising `Path not found`), only then
`path.resolve().is_relative_to(self._tmp_path)` (raising
`Path traversal detected`).  `none` means the check passed. -/
def validate_path (fs : FileSystem) (tmpPath p : List String) : Option PathError :=
  if fs.pathExists p = false then some .notFound
  else if isRelativeTo (fs.resolve p) tmpPath = false then some .traversal
  else none

/-! ## Data model: `ApplicationManifest` and `FlipperApplication` -/

/-- `CodeLocation` dataclass (bundle.py lines 33-36): the `location`
string-to-string mapping is modelled as an association list. -/
structure CodeLocation where
  type : String
  location : List (String × String)
deriving DecidableEq, Repr

/-- `ApplicationManifest` dataclass (bundle.py lines 39-52), with the
same field defaults as the Python dataclass. -/
structure ApplicationManifest where
  sourcecode : CodeLocation
  name : String := ""
  id : String := ""
  author : String := ""
  version : String := ""
  icon : String := ""
  category : String := ""
  short_description : String := ""
  description : String := ""
  changelog : String := ""
  screenshots : List String := []
  targets : List String := []
deriving DecidableEq, Repr

/-- The fields of `fbt`'s `FlipperApplication` dataclass
(flipper/appmanifest_core.py lines 24-71) that `sync_from` reads.
`fap_version` is a tuple of integers. -/
structure FlipperApplication where
  appid : String
  name : String := ""
  targets : List String := ["all"]
  fap_version : List Nat := [0, 1]
  fap_icon : String := ""
  fap_category : String := ""
  fap_description : String := ""
  fap_author : String := ""
deriving DecidableEq, Repr

/-- The `version` converter of the field map:
`lambda v: ".".join(map(str, v))`. -/
def versionString (v : List Nat) : String :=
  String.intercalate "." (v.map toString)

/-! ## MetadataReconciler: `ApplicationManifest.sync_from`
(bundle.py lines 54-97) -/

/-- The fatal error raised on a must-match conflict, carrying the
conflicting YAML field's name. -/
inductive SyncError where
  | conflict (yamlField : String)
deriving DecidableEq, Repr

/-- Python falsiness of a string: `""` is falsy. -/
def strIsEmpty (s : String) : Bool := s = ""

/-- Python falsiness of a list: `[]` is falsy. -/
def listIsEmpty (l : List String) : Bool := l.isEmpty

/-- One iteration of the `sync_from` field loop, for one field:

* both values non-empty and different: raise on `must_match`,
  otherwise warn and keep the current (YAML) value;
* current value empty: adopt the FAM value;
* otherwise keep the current value.

The Python type-equality guard always passes here because both values
have the same static type. -/
def reconcileValue {α : Type} [DecidableEq α] (isE : α → Bool)
    (mustMatch : Bool) (yamlField : String) (cur fam : α) :
    Except SyncError α :=
  if isE cur = false ∧ isE fam = false ∧ cur ≠ fam then
    if mustMatch then .error (.conflict yamlField) else .ok cur
  else if isE cur = true then .ok fam
  else .ok cur

/-- `ApplicationManifest.sync_from(app)`, processing the field map in
its source order (`name`, `id`, `author`, `category`, `icon`,
`short_description`, `targets`, `version`).  Since every field is
written at most once and each iteration reads only its own field, the
reads are taken from the input manifest.  A raise stops the loop,
keeping the updates already made (Python mutates `self` in place); the
result pairs the final manifest state with the error, if any.
`allowVersionMismatch` models
`os.environ.get("BUNDLE_ALLOW_VERSION_MISMATCH", "0") != "0"`:
`version` is must-match exactly when it is `false`. -/
def sync_from (m : ApplicationManifest) (app : FlipperApplication)
    (allowVersionMismatch : Bool) : ApplicationManifest × Option SyncError :=
  match reconcileValue strIsEmpty true "name" m.name app.name with
  | .error e => (m, some e)
  | .ok v1 =>
  match reconcileValue strIsEmpty true "id" m.id app.appid with
  | .error e => ({ m with name := v1 }, some e)
  | .ok v2 =>
  match reconcileValue strIsEmpty false "author" m.author app.fap_author with
  | .error e => ({ m with name := v1, id := v2 }, some e)
  | .ok v3 =>
  match reconcileValue strIsEmpty false "category" m.category app.fap_category with
  | .error e => ({ m with name := v1, id := v2, author := v3 }, some e)
  | .ok v4 =>
  match reconcileValue strIsEmpty false "icon" m.icon app.fap_icon with
  | .error e => ({ m with name := v1, id := v2, author := v3, category := v4 }, some e)
  | .ok v5 =>
  match reconcileValue strIsEmpty false "short_description"
      m.short_description app.fap_description with
  | .error e =>
    ({ m with name := v1, id := v2, author := v3, category := v4, icon := v5 }, some e)
  | .ok v6 =>
  match reconcileValue listIsEmpty false "targets" m.targets app.targets with
  | .error e =>
    ({ m with
        name := v1, id := v2, author := v3, category := v4, icon := v5,
        short_description := v6 }, some e)
  | .ok v7 =>
  match reconcileValue strIsEmpty (!allowVersionMismatch) "version"
      m.version (versionString app.fap_version) with
  | .error e =>
    ({ m with
        name := v1, id := v2, author := v3, category := v4, icon := v5,
        short_description := v6, targets := v7 }, some e)
  | .ok v8 =>
    ({ m with
        name := v1, id := v2, author := v3, category := v4, icon := v5,
        short_description := v6, targets := v7, version := v8 }, none)

/-! ## AssetProcessor: `AppBundler.__process_screenshot` and
`AppBundler.__process_icon` (bundle.py lines 384-446) -/

/-- `FLIPPER_SCREEN_SIZE = (128, 64)`. -/
def FLIPPER_SCREEN_SIZE : Nat × Nat := (128, 64)

/-- `APP_SCREENSHOT_DOWNSCALE_FACTORS = (4, 8)`. -/
def APP_SCREENSHOT_DOWNSCALE_FACTORS : List Nat := [4, 8]

/-- `FLIPPER_ICON_SIZE = (10, 10)`. -/
def FLIPPER_ICON_SIZE : Nat × Nat := (10, 10)

/-- The dimension logic of `AppBundler.__process_screenshot`:

* `downscale_factors = (width // 128, height // 64)` (floor division);
* reject unless the two factors are equal and in
  `APP_SCREENSHOT_DOWNSCALE_FACTORS`;
* `downscaled_resolution = (width // factor, height // factor)`;
* reject unless that equals `FLIPPER_SCREEN_SIZE`;
* the image is then resized to `downscaled_resolution` (nearest
  neighbour), so the returned pair is the output image's dimensions.

The per-pixel transparency rewrite does not change dimensions and is
not modelled here. -/
def process_screenshot_dims (width height : Nat) : Except String (Nat × Nat) :=
  let f0 := width / FLIPPER_SCREEN_SIZE.1
  let f1 := height / FLIPPER_SCREEN_SIZE.2
  if f0 ≠ f1 ∨ ¬ f0 ∈ APP_SCREENSHOT_DOWNSCALE_FACTORS then
    .error "UnsupportedScreenshotResolution"
  else
    let dw := width / f0
    let dh := height / f1
    if (dw, dh) ≠ FLIPPER_SCREEN_SIZE then
      .error "UnsupportedScreenshotResolution"
    else
      .ok (dw, dh)

/-- One RGBA pixel. -/
structure Pixel where
  r : Nat
  g : Nat
  b : Nat
  a : Nat
deriving DecidableEq, Repr

/-- An image after PIL's `convert("RGBA")`: dimensions plus the
row-major pixel data returned by `img.getdata()`. -/
structure RGBAImage where
  width : Nat
  height : Nat
  pixels : List Pixel
deriving DecidableEq, Repr

/-- The per-pixel rewrite shared by icon and screenshot processing:
`(255, 255, 255, 0) if pixel[:3] != (0, 0, 0) else pixel`. -/
def blackKeyPixel (p : Pixel) : Pixel :=
  if (p.r, p.g, p.b) ≠ (0, 0, 0) then ⟨255, 255, 255, 0⟩ else p

/-- `AppBundler.__process_icon`: reject unless the size is exactly
`FLIPPER_ICON_SIZE`; otherwise rewrite every non-black pixel to
transparent white and save the result as PNG.  There is no further
check on the pixel values. -/
def process_icon (img : RGBAImage) : Except String RGBAImage :=
  if (img.width, img.height) ≠ FLIPPER_ICON_SIZE then
    .error "IconResolution"
  else
    .ok { img with pixels := img.pixels.map blackKeyPixel }

/-! ## SourceFetcher: `AppBundler._fetch_sources`
(bundle.py lines 281-321) -/

/-- The observable filesystem side effects of `_fetch_sources`, in the
order they are performed. -/
inductive FetchEffect where
  | clone (origin : String)
  | checkout (sha : String)
  | move
deriving DecidableEq, Repr

/-- The errors `_fetch_sources` raises. -/
inductive FetchError where
  | unknownSourceType
  | shaMissing
  | shaNot40
  | codeTraversal
deriving DecidableEq, Repr

/-- The `sourcecode.location` data `_fetch_sources` reads.  A missing
key is `none`; `location_data.get` followed by truthiness testing also
treats `""` as missing. -/
structure SourceLocationData where
  origin : String
  commit_sha : Option String := none
  subdir : Option String := none
deriving DecidableEq, Repr

/-- `AppBundler._fetch_sources`, as an effect trace plus an optional
error, in source order:

1. reject a `sourcecode.type` other than `"git"` (before any effect);
2. `Repo.clone_from(origin, ...)` — the clone side effect;
3. reject a missing (or empty, by Python falsiness) `commit_sha`;
4. reject a `commit_sha` whose length is not 40;
5. check out the commit;
6. if a `subdir` is given, reject it unless the resolved subdirectory
   stays inside the clone root (`subdirInside` abstracts
   `(repo_code).resolve().is_relative_to(self._tmp_code_path)`);
7. move the code into the sandbox. -/
def fetch_sources (srcType : String) (loc : SourceLocationData)
    (subdirInside : String → Bool) : List FetchEffect × Option FetchError :=
  if srcType ≠ "git" then ([], some .unknownSourceType)
  else
    let effs := [FetchEffect.clone loc.origin]
    match loc.commit_sha with
    | none => (effs, some .shaMissing)
    | some sha =>
      if sha = "" then (effs, some .shaMissing)
      else if sha.length ≠ 40 then (effs, some .shaNot40)
      else
        let effs := effs ++ [FetchEffect.checkout sha]
        match loc.subdir with
        | some d =>
          if subdirInside d = false then (effs, some .codeTraversal)
          else (effs ++ [.move], none)
        | none => (effs ++ [.move], none)

/-! ## PackageAssembler: `AppBundler._build_package`
(bundle.py lines 538-564) -/

/- A directory tree as walked by `os.walk`: a directory holds a list
of file names and a forest of named subdirectories. -/
mutual
inductive FSTree where
  | node (files : List String) (subs : FSForest)
inductive FSForest where
  | nil
  | cons (name : String) (tree : FSTree) (rest : FSForest)
end

/-- `startswith(".")` on a name, over its character list. -/
def startsWithDot (s : String) : Bool :=
  match s.data with
  | '.' :: _ => true
  | _ => false

/-- The folder-skip condition of the walk loop:
`folder_name.startswith(".") or folder_name == "dist"`. -/
def skipFolder (name : String) : Bool :=
  startsWithDot name || name == "dist"

/-- The walk can fail with Python's `NameError` (reading the unbound
`filename` variable) — it is not a `BundlerException`. -/
inductive WalkError where
  | nameError
deriving DecidableEq, Repr

/-- The subfolder loop of one `os.walk` step:
for each skippable subfolder the code logs
`f"Skipping folder {filename}"`, which reads the loop variable
`filename` of the *file* loop; if no file loop iteration has run yet
(`fv = none`), that read raises `NameError`.  Skippable subfolders are
removed from the walk. -/
def checkSubfolders (fv : Option String) : FSForest → Option WalkError
  | .nil => none
  | .cons n _ rest =>
    if skipFolder n then
      match fv with
      | none => some .nameError
      | some _ => checkSubfolders fv rest
    else checkSubfolders fv rest

/-- The file loop of one `os.walk` step: every iteration binds
`filename`; hidden files are skipped, the rest are added to the
archive.  Returns the final binding of `filename` and the archive
entries so far. -/
def walkFiles (fv : Option String) (acc : List String) :
    List String → Option String × List String
  | [] => (fv, acc)
  | f :: rest =>
    if startsWithDot f then walkFiles (some f) acc rest
    else walkFiles (some f) (acc ++ [f]) rest

/- The `os.walk(self._tmp_path)` loop of `_build_package`, top-down:
at each directory the subfolder-skip loop runs first (possibly raising
`NameError`), then the file loop, then the walk descends into the
non-skipped subdirectories in order.  The `filename` binding leaks
across directories, as Python loop variables do. -/
mutual
def walkDir (fv : Option String) (acc : List String) :
    FSTree → Except WalkError (Option String × List String)
  | .node files subs =>
    match checkSubfolders fv subs with
    | some e => .error e
    | none =>
      match walkFiles fv acc files with
      | (fv1, acc1) => walkForest fv1 acc1 subs
def walkForest (fv : Option String) (acc : List String) :
    FSForest → Except WalkError (Option String × List String)
  | .nil => .ok (fv, acc)
  | .cons n t rest =>
    if skipFolder n then walkForest fv acc rest
    else
      match walkDir fv acc t with
      | .error e => .error e
      | .ok (fv1, acc1) => walkForest fv1 acc1 rest
end

/-- `AppBundler._build_package`'s archive walk, starting at the
sandbox root with `filename` unbound.  Returns the archive entries. -/
def build_package_walk (root : FSTree) : Except WalkError (List String) :=
  match walkDir none [] root with
  | .error e => .error e
  | .ok (_, acc) => .ok acc

/-! ## Asset staging: `AppBundler._process_assets`
(bundle.py lines 448-468) -/

/-- Index of the last occurrence of `c` in `cs`, if any. -/
def lastIdx (c : Char) (cs : List Char) : Option Nat :=
  ((cs.enum.filter (fun p => p.2 = c)).map (fun p => p.1)).getLast?

/-- The extension part of `os.path.splitext` (POSIX rules): the suffix
from the last `'.'`, provided it comes after the last `'/'` and the
base name has a non-dot character before it (so `".bashrc"` has no
extension). -/
def splitextExt (p : String) : String :=
  let cs := p.data
  let sepIdx : Int := match lastIdx '/' cs with
    | some i => (i : Int)
    | none => -1
  let dotIdx : Int := match lastIdx '.' cs with
    | some i => (i : Int)
    | none => -1
  if dotIdx > sepIdx then
    if cs.enum.any (fun q =>
        sepIdx < (q.1 : Int) ∧ (q.1 : Int) < dotIdx ∧ q.2 ≠ '.') then
      String.mk (cs.drop dotIdx.toNat)
    else ""
  else ""

/-- A file written to the staging area: its sandbox-relative path and
the format string passed to `img.save`. -/
structure SavedFile where
  path : String
  format : String
deriving DecidableEq, Repr

/-- The screenshot loop of `_process_assets`: the `i`-th manifest
screenshot is staged at
`assets/screenshots/{i}{os.path.splitext(screenshot)[1]}` and
`__process_screenshot` saves it with `img.save(dst, "PNG")`. -/
def process_assets_screenshots (screenshots : List String) : List SavedFile :=
  screenshots.enum.map (fun p =>
    { path := "assets/screenshots/" ++ toString p.1 ++ splitextExt p.2,
      format := "PNG" })

/-! ## ContentSanitizer: `BasicTextExtension` +
`AppBundler.__check_markdown` (bundle.py lines 100-202, 530-536)

The accept/reject decision is shared between `BasicTextExtension`
(which raises on the hooked constructs) and the third-party `markdown`
engine, whose pattern/block machinery decides *which* text matches
each construct; the engine is not part of this repository's sources.
The scanner below is therefore modelled from the spec (restricted
grammar of §4.6): it reports the first disallowed construct — inline
code span, image, raw HTML tag, HTML entity, header deeper than
`MAX_HEADER_DEPTH = 2`, horizontal rule, blockquote — and accepts
paragraphs, emphasis, and ordered/unordered lists. -/

/-- The backtick character (code point 96), which opens an inline
code span. -/
def backtickChar : Char := Char.ofNat 96

/-- After a `&`: a non-empty alphanumeric entity name followed by a
semicolon. -/
def entityAfter (rest : List Char) : Bool :=
  let nm := rest.takeWhile (fun c => c.isAlphanum)
  !nm.isEmpty &&
    (match rest.drop nm.length with | ';' :: _ => true | _ => false)

/-- Modelled from the spec: inline scan of one line for disallowed
inline constructs (the third-party markdown engine's inline pattern
matching is not in the sources).  Reports the first of: a backtick
code span, an image (`![`), a raw HTML tag or autolink/automail
(`<` followed by a letter or `/`), or an HTML entity
(`&name;`). -/
def inlineViolation : List Char → Option String
  | [] => none
  | c :: rest =>
    if c = backtickChar then some "Backtick"
    else if c = '!' ∧ rest.head? = some '[' then some "Image"
    else if c = '<' ∧
        (rest.head?.elim false (fun d => d.isAlpha || d = '/')) = true then
      some "Html"
    else if c = '&' ∧ entityAfter rest then some "Entity"
    else inlineViolation rest

/-- Modelled from the spec: a horizontal-rule line — ignoring spaces,
three or more copies of the same character from `-`, `*`, `_`. -/
def lineIsHR (cs : List Char) : Bool :=
  let t := cs.filter (fun c => c ≠ ' ')
  match t with
  | c :: rest =>
    (c = '-' || c = '*' || c = '_') && t.length ≥ 3 && rest.all (fun d => d = c)
  | [] => false

/-- Modelled from the spec: block-level check of one line — a
blockquote (leading `>`), a horizontal rule, or a hash header deeper
than `MAX_HEADER_DEPTH = 2`; otherwise the inline scan runs on the
line. -/
def lineViolation (line : List Char) : Option String :=
  let cs := line.dropWhile (fun c => c = ' ')
  match cs with
  | '>' :: _ => some "Quote"
  | _ =>
    if lineIsHR cs then some "Horizontal Line"
    else
      let hashes := cs.takeWhile (fun c => c = '#')
      if hashes.length > 2 then some "Header Depth"
      else inlineViolation (cs.drop hashes.length)

/-- Split a character list at newlines. -/
def splitLinesAux (cur : List Char) : List Char → List (List Char)
  | [] => [cur.reverse]
  | '\n' :: rest => cur.reverse :: splitLinesAux [] rest
  | c :: rest => splitLinesAux (c :: cur) rest

/-- Modelled from the spec: `ContentSanitizer.check` /
`AppBundler.__check_markdown` — report the first disallowed construct
in the text, line by line; `none` means the text is accepted. -/
def sanitizer_check (text : String) : Option String :=
  (splitLinesAux [] text.data).findSome? lineViolation

/-! ## Theorems -/

/-- C1, counterexample: a path that does not exist and whose
resolution lies outside the root fails with the not-found error, not
the traversal error — so the traversal error is *not* the one raised
for every outside path. -/
theorem validate_path_outside_without_traversal_error :
    validate_path ⟨fun _ => false, fun p => p⟩ ["tmp"] ["etc", "passwd"] =
        some PathError.notFound
    ∧ isRelativeTo ((⟨fun _ => false, fun p => p⟩ : FileSystem).resolve
        ["etc", "passwd"]) ["tmp"] = false
    ∧ some PathError.notFound ≠ some PathError.traversal := by
  refine ⟨by decide, by decide, by decide⟩

/-- C1, amended: `_validate_path` succeeds exactly when the path
exists and its resolution lies inside the root; a path that exists but
resolves outside fails with the traversal error; a path that does not
exist fails with the not-found error (even when it would resolve
outside), because existence is checked first. -/
theorem validate_path_characterization (fs : FileSystem) (tmp p : List String) :
    (validate_path fs tmp p = none ↔
      fs.pathExists p = true ∧ isRelativeTo (fs.resolve p) tmp = true)
    ∧ (fs.pathExists p = true → isRelativeTo (fs.resolve p) tmp = false →
        validate_path fs tmp p = some PathError.traversal)
    ∧ (fs.pathExists p = false → validate_path fs tmp p = some PathError.notFound) := by
  unfold validate_path
  by_cases he : fs.pathExists p = false <;>
    by_cases hr : isRelativeTo (fs.resolve p) tmp = false <;>
      simp_all

/-- Witness for `validate_path_characterization`: a path that exists
but resolves outside the root fails with the traversal error. -/
theorem validate_path_characterization_witness :
    validate_path ⟨fun _ => true, fun p => p⟩ ["tmp"] ["etc"] =
      some PathError.traversal :=
  (validate_path_characterization ⟨fun _ => true, fun p => p⟩ ["tmp"] ["etc"]).2.1
    (by decide) (by decide)

/-- C3, counterexample: the 514×256 input is accepted by the
screenshot dimension check although it is not an exact
(128·k, 64·k) multiple for k ∈ {4, 8}: the two floor divisions
`514 // 128 = 4` and `514 // 4 = 128` both hide a remainder. -/
theorem process_screenshot_nonmultiple_accepted :
    process_screenshot_dims 514 256 = .ok (128, 64)
    ∧ (514, 256) ≠ (128 * 4, 64 * 4)
    ∧ (514, 256) ≠ (128 * 8, 64 * 8) :=
  ⟨rfl, by decide, by decide⟩

/-- C3, amended: the screenshot dimension check accepts exactly the
inputs whose floor-division factors `w / 128` and `h / 64` agree, lie
in the allowed factor set {4, 8}, and divide the input back to exactly
128×64 — so every exact multiple (128·k, 64·k), k ∈ {4, 8}, is
accepted, but so are a few near-multiples (remainders below the
factor).  Every accepted input is strictly landscape (width > height)
and every accepted input yields an output of exactly 128×64. -/
theorem process_screenshot_dims_characterization (w h : Nat) :
    ((∃ d, process_screenshot_dims w h = .ok d) ↔
      (∃ f, (f = 4 ∨ f = 8) ∧ w / 128 = f ∧ h / 64 = f ∧ w / f = 128 ∧ h / f = 64))
    ∧ (∀ k, (k = 4 ∨ k = 8) → w = 128 * k → h = 64 * k →
        process_screenshot_dims w h = .ok (128, 64))
    ∧ (∀ d, process_screenshot_dims w h = .ok d → d = (128, 64) ∧ h < w) := by
  unfold process_screenshot_dims FLIPPER_SCREEN_SIZE APP_SCREENSHOT_DOWNSCALE_FACTORS
  refine ⟨⟨?_, ?_⟩, ?_, ?_⟩
  · intro ⟨d, hd⟩
    dsimp only at hd
    split at hd
    · exact absurd hd (by simp)
    · split at hd
      · exact absurd hd (by simp)
      · rename_i hcond hres
        simp only [not_or, not_not] at hcond
        refine ⟨w / 128, ?_, rfl, ?_, ?_, ?_⟩ <;> simp_all
        all_goals omega
  · intro ⟨f, hf, h1, h2, h3, h4⟩
    refine ⟨(128, 64), ?_⟩
    rcases hf with rfl | rfl <;> simp_all
  · rintro k (rfl | rfl) rfl rfl <;> rfl
  · intro d hd
    dsimp only at hd
    split at hd
    · exact absurd hd (by simp)
    · split at hd
      · exact absurd hd (by simp)
      · rename_i hcond hres
        simp only [not_or, not_not] at hcond
        obtain ⟨hf, hmem⟩ := hcond
        simp only [Except.ok.injEq] at hd
        subst hd
        simp only [List.mem_cons, List.not_mem_nil, or_false] at hmem
        simp only [ne_eq, Prod.mk.injEq, not_and] at hres
        rcases hmem with h4 | h8 <;>
          constructor <;> simp_all <;> omega

/-- Witness for `process_screenshot_dims_characterization`: the exact
multiple 512×256 (factor 4) is accepted with output 128×64. -/
theorem process_screenshot_dims_characterization_witness :
    process_screenshot_dims 512 256 = .ok (128, 64) :=
  (process_screenshot_dims_characterization 512 256).2.1 4 (Or.inl rfl) rfl rfl

/-- C4, counterexample: a 10×10 icon containing a pure-red pixel (not
black and not white) and a fully transparent black pixel is *accepted*
— `__process_icon` checks only the size, never the pixel colors — the
red pixel is rewritten to transparent white, and the transparent black
pixel stays transparent (alpha 0) rather than being made opaque. -/
theorem process_icon_accepts_colored_pixels :
    process_icon
        ⟨10, 10, ⟨255, 0, 0, 255⟩ :: ⟨0, 0, 0, 0⟩ :: List.replicate 98 ⟨0, 0, 0, 255⟩⟩ =
      .ok ⟨10, 10, ⟨255, 255, 255, 0⟩ :: ⟨0, 0, 0, 0⟩ :: List.replicate 98 ⟨0, 0, 0, 255⟩⟩
    ∧ (⟨255, 0, 0, 255⟩ : Pixel) ≠ ⟨0, 0, 0, 255⟩
    ∧ (⟨255, 0, 0, 255⟩ : Pixel) ≠ ⟨255, 255, 255, 255⟩ := by
  refine ⟨?_, by decide, by decide⟩
  show process_icon _ = _
  unfold process_icon
  norm_num [FLIPPER_ICON_SIZE, blackKeyPixel, List.replicate]

/-- C4, amended: icon processing accepts an input exactly when it is
10×10 pixels — the pixel colors are never checked, so icons with
colored pixels are accepted too; in the output every non-black pixel
is rewritten to fully transparent white, while every black pixel is
kept *unchanged* (so it stays opaque only if it already was). -/
theorem process_icon_characterization (img : RGBAImage) :
    ((∃ out, process_icon img = .ok out) ↔ (img.width, img.height) = (10, 10))
    ∧ (∀ out, process_icon img = .ok out →
        out.width = img.width ∧ out.height = img.height ∧
        out.pixels = img.pixels.map blackKeyPixel)
    ∧ (∀ p : Pixel, ((p.r, p.g, p.b) ≠ (0, 0, 0) → blackKeyPixel p = ⟨255, 255, 255, 0⟩)
        ∧ ((p.r, p.g, p.b) = (0, 0, 0) → blackKeyPixel p = p)) := by
  refine ⟨⟨?_, ?_⟩, ?_, ?_⟩
  · intro ⟨out, hout⟩
    unfold process_icon at hout
    split at hout
    · exact absurd hout (by simp)
    · simp_all [FLIPPER_ICON_SIZE]
  · intro hsz
    refine ⟨{ img with pixels := img.pixels.map blackKeyPixel }, ?_⟩
    unfold process_icon
    simp [FLIPPER_ICON_SIZE, hsz]
  · intro out hout
    unfold process_icon at hout
    split at hout
    · exact absurd hout (by simp)
    · cases hout
      simp
  · intro p
    refine ⟨fun hp => ?_, fun hp => ?_⟩
    · unfold blackKeyPixel
      rw [if_pos hp]
    · unfold blackKeyPixel
      rw [if_neg (fun hn => hn hp)]

/-- Witness for `process_icon_characterization`: an all-black 10×10
icon is accepted and its output keeps every pixel. -/
theorem process_icon_characterization_witness :
    (∃ out, process_icon ⟨10, 10, List.replicate 100 ⟨0, 0, 0, 255⟩⟩ = .ok out) :=
  (process_icon_characterization ⟨10, 10, List.replicate 100 ⟨0, 0, 0, 255⟩⟩).1.2
    (by decide)

/-- C5, counterexample: with a 39-character commit identifier the
fetch stage does fail with the revision-length error, but the
repository clone has already happened — the clone effect is in the
trace before the failure, so the failure is *not* prior to any
repository-cloning side effect. -/
theorem fetch_sources_clones_before_sha_check :
    fetch_sources "git"
        ⟨"https://example.com/r.git",
          some "aaaaaaaaaaaaaaaaaaaaaaaaaaaaaaaaaaaaaaa", none⟩
        (fun _ => true) =
      ([FetchEffect.clone "https://example.com/r.git"], some FetchError.shaNot40)
    ∧ FetchEffect.clone "https://example.com/r.git" ∈
        (fetch_sources "git"
          ⟨"https://example.com/r.git",
            some "aaaaaaaaaaaaaaaaaaaaaaaaaaaaaaaaaaaaaaa", none⟩
          (fun _ => true)).1 :=
  ⟨rfl, by decide⟩

/-- C5, amended: for a manifest whose `sourcecode.location.commit_sha`
is missing, empty, or not exactly 40 characters long (only the length
is checked, not hexness), `_fetch_sources` fails with a revision error
— but only *after* the repository has been cloned: the clone side
effect always precedes the check. -/
theorem fetch_sources_revision_error_after_clone (origin : String)
    (sha : Option String) (subdir : Option String) (inside : String → Bool)
    (h : sha = none ∨ ∃ s, sha = some s ∧ (s = "" ∨ s.length ≠ 40)) :
    ((fetch_sources "git" ⟨origin, sha, subdir⟩ inside).2 = some FetchError.shaMissing
      ∨ (fetch_sources "git" ⟨origin, sha, subdir⟩ inside).2 = some FetchError.shaNot40)
    ∧ FetchEffect.clone origin ∈ (fetch_sources "git" ⟨origin, sha, subdir⟩ inside).1 := by
  rcases h with rfl | ⟨s, rfl, hs⟩
  · exact ⟨Or.inl rfl, by simp [fetch_sources]⟩
  · rcases hs with rfl | hlen
    · exact ⟨Or.inl rfl, by simp [fetch_sources]⟩
    · by_cases hse : s = ""
      · exact ⟨Or.inl (by simp [fetch_sources, hse]), by simp [fetch_sources, hse]⟩
      · exact ⟨Or.inr (by simp [fetch_sources, hse, hlen]),
          by simp [fetch_sources, hse, hlen]⟩

/-- Witness for `fetch_sources_revision_error_after_clone`: a missing
commit SHA fails with the missing-revision error and the clone effect
is in the trace. -/
theorem fetch_sources_revision_error_after_clone_witness :
    ((fetch_sources "git" ⟨"https://example.com/r.git", none, none⟩
        (fun _ => true)).2 = some FetchError.shaMissing
      ∨ (fetch_sources "git" ⟨"https://example.com/r.git", none, none⟩
        (fun _ => true)).2 = some FetchError.shaNot40)
    ∧ FetchEffect.clone "https://example.com/r.git" ∈
        (fetch_sources "git" ⟨"https://example.com/r.git", none, none⟩
          (fun _ => true)).1 :=
  fetch_sources_revision_error_after_clone "https://example.com/r.git" none none
    (fun _ => true) (Or.inl rfl)

/-- C7: the content sanitizer rejects an inline code span, an image,
raw HTML, an HTML entity, a level-3 header, a horizontal rule, and a
blockquote, naming the disallowed construct in each case; and it
accepts ordered lists, unordered lists, bold text, and italic text. -/
theorem sanitizer_check_grammar :
    sanitizer_check "`code`" = some "Backtick"
    ∧ sanitizer_check "![img](url)" = some "Image"
    ∧ sanitizer_check "<tag>" = some "Html"
    ∧ sanitizer_check "&entity;" = some "Entity"
    ∧ sanitizer_check "### x" = some "Header Depth"
    ∧ sanitizer_check "---" = some "Horizontal Line"
    ∧ sanitizer_check "> x" = some "Quote"
    ∧ sanitizer_check "1. Item\n2. Item" = none
    ∧ sanitizer_check "* Item\n* Item" = none
    ∧ sanitizer_check "**bold text**" = none
    ∧ sanitizer_check "*italic text*" = none := by
  refine ⟨?_, ?_, ?_, ?_, ?_, ?_, ?_, ?_, ?_, ?_, ?_⟩ <;> decide

/-- How a forest of subdirectory names can trigger the skip branch:
some name starts with a dot or equals `dist`. -/
def forestHasSkippable : FSForest → Bool
  | .nil => false
  | .cons n _ rest => skipFolder n || forestHasSkippable rest

/-- The subfolder-skip loop raises `NameError` whenever a skippable
subfolder is present and `filename` is still unbound. -/
theorem checkSubfolders_unbound_nameError :
    ∀ (subs : FSForest), forestHasSkippable subs = true →
      checkSubfolders none subs = some WalkError.nameError
  | .cons n t rest, h => by
    unfold forestHasSkippable at h
    unfold checkSubfolders
    by_cases hs : skipFolder n = true
    · simp [hs]
    · simp only [hs, Bool.false_or] at h
      simp only [Bool.not_eq_true] at hs
      simp [hs]
      exact checkSubfolders_unbound_nameError rest h

/-- C8: if the first directory visited by the package-assembly walk
(the sandbox root) contains a subdirectory whose name starts with `.`
or equals `dist`, `_build_package` raises `NameError` — the
skip-logging f-string reads the variable `filename` before any file
loop has bound it — rather than skipping the folder silently or
raising a `BundlerException`. -/
theorem build_package_walk_first_dir_nameError (files : List String)
    (subs : FSForest) (h : forestHasSkippable subs = true) :
    build_package_walk (.node files subs) = .error WalkError.nameError := by
  unfold build_package_walk walkDir
  rw [checkSubfolders_unbound_nameError subs h]

/-- Witness for `build_package_walk_first_dir_nameError`: a sandbox
root containing `manifest.yml` and a `.git` subdirectory makes the
walk fail with `NameError`. -/
theorem build_package_walk_first_dir_nameError_witness :
    build_package_walk
      (.node ["manifest.yml"] (.cons ".git" (.node [] .nil) .nil)) =
      .error WalkError.nameError :=
  build_package_walk_first_dir_nameError ["manifest.yml"]
    (.cons ".git" (.node [] .nil) .nil) (by decide)

/-- C10: the `i`-th screenshot is staged under the name
`assets/screenshots/{i}{original extension}` while its content is
always saved in PNG format — so a non-`.png` source keeps its original
extension in the bundle even though the bytes are PNG. -/
theorem process_assets_screenshots_png_with_source_ext
    (shots : List String) (i : Nat) (h : i < shots.length) :
    (process_assets_screenshots shots)[i]? =
      some ⟨"assets/screenshots/" ++ toString i ++ splitextExt shots[i], "PNG"⟩ := by
  unfold process_assets_screenshots
  rw [List.getElem?_map, List.getElem?_enum]
  simp [h]

/-- Witness for `process_assets_screenshots_png_with_source_ext`: the
screenshot source `shot.jpg` is staged as `assets/screenshots/0.jpg`,
saved in PNG format. -/
theorem process_assets_screenshots_png_with_source_ext_witness :
    (process_assets_screenshots ["shots/shot.jpg"])[0]? =
      some ⟨"assets/screenshots/0.jpg", "PNG"⟩ := by
  rw [process_assets_screenshots_png_with_source_ext ["shots/shot.jpg"] 0 (by decide)]
  decide

/-- A must-match field with two non-empty, differing values raises
the conflict error. -/
theorem reconcileValue_conflict {α : Type} [DecidableEq α] (isE : α → Bool)
    (n : String) (cur fam : α) (h1 : isE cur = false) (h2 : isE fam = false)
    (h3 : cur ≠ fam) :
    reconcileValue isE true n cur fam = .error (.conflict n) := by
  unfold reconcileValue
  rw [if_pos ⟨h1, h2, h3⟩, if_pos rfl]

/-- The value a successful reconciliation returns: the FAM value when
the manifest value is empty, the manifest value otherwise. -/
theorem reconcileValue_ok_val {α : Type} [DecidableEq α] (isE : α → Bool)
    (must : Bool) (n : String) (cur fam v : α)
    (h : reconcileValue isE must n cur fam = .ok v) :
    v = if isE cur = true then fam else cur := by
  unfold reconcileValue at h
  by_cases hc : isE cur = false ∧ isE fam = false ∧ cur ≠ fam
  · rw [if_pos hc] at h
    cases must
    · simp only [Bool.false_eq_true, if_false, Except.ok.injEq] at h
      subst h
      simp [hc.1]
    · simp at h
  · rw [if_neg hc] at h
    by_cases he : isE cur = true
    · simp_all
    · simp_all

/-- Reconciliation is idempotent per field: a second run on the value
a successful run produced succeeds and returns it unchanged. -/
theorem reconcileValue_ok_idem {α : Type} [DecidableEq α] (isE : α → Bool)
    (must : Bool) (n : String) (cur fam v : α)
    (h : reconcileValue isE must n cur fam = .ok v) :
    reconcileValue isE must n v fam = .ok v := by
  unfold reconcileValue at h ⊢
  by_cases h1 : isE cur = false <;> by_cases h2 : isE fam = false <;>
    by_cases h3 : cur = fam <;> cases must <;> simp_all

/-- C2: the reconciliation law of `sync_from`.  Non-empty differing
values on a must-match field — `name`, `id`, and `version` unless the
mismatch escape flag is set — make reconciliation fail fatally; on a
successful run every field keeps the manifest value when it is
non-empty (soft conflicts only warn) and adopts the build-target value
exactly when the manifest value is empty. -/
theorem sync_from_reconciliation_law (m : ApplicationManifest)
    (app : FlipperApplication) (allow : Bool) :
    (m.name ≠ "" → app.name ≠ "" → m.name ≠ app.name →
      ((sync_from m app allow).2).isSome = true)
    ∧ (m.id ≠ "" → app.appid ≠ "" → m.id ≠ app.appid →
      ((sync_from m app allow).2).isSome = true)
    ∧ (allow = false → m.version ≠ "" → versionString app.fap_version ≠ "" →
      m.version ≠ versionString app.fap_version →
      ((sync_from m app allow).2).isSome = true)
    ∧ ((sync_from m app allow).2 = none →
      (sync_from m app allow).1 = { m with
        name := if m.name = "" then app.name else m.name,
        id := if m.id = "" then app.appid else m.id,
        author := if m.author = "" then app.fap_author else m.author,
        category := if m.category = "" then app.fap_category else m.category,
        icon := if m.icon = "" then app.fap_icon else m.icon,
        short_description :=
          if m.short_description = "" then app.fap_description
          else m.short_description,
        targets := if m.targets = [] then app.targets else m.targets,
        version :=
          if m.version = "" then versionString app.fap_version
          else m.version }) := by
  refine ⟨?_, ?_, ?_, ?_⟩
  · intro h1 h2 h3
    unfold sync_from
    rw [reconcileValue_conflict strIsEmpty "name" m.name app.name
      (by simp [strIsEmpty, h1]) (by simp [strIsEmpty, h2]) h3]
    rfl
  · intro h1 h2 h3
    unfold sync_from
    cases hn : reconcileValue strIsEmpty true "name" m.name app.name with
    | error e => rfl
    | ok v1 =>
      rw [reconcileValue_conflict strIsEmpty "id" m.id app.appid
        (by simp [strIsEmpty, h1]) (by simp [strIsEmpty, h2]) h3]
      rfl
  · intro ha h1 h2 h3
    subst ha
    unfold sync_from
    cases hn : reconcileValue strIsEmpty true "name" m.name app.name with
    | error e => rfl
    | ok v1 =>
    cases hi : reconcileValue strIsEmpty true "id" m.id app.appid with
    | error e => rfl
    | ok v2 =>
    cases hau : reconcileValue strIsEmpty false "author" m.author app.fap_author with
    | error e => rfl
    | ok v3 =>
    cases hc : reconcileValue strIsEmpty false "category" m.category app.fap_category with
    | error e => rfl
    | ok v4 =>
    cases hic : reconcileValue strIsEmpty false "icon" m.icon app.fap_icon with
    | error e => rfl
    | ok v5 =>
    cases hsd : reconcileValue strIsEmpty false "short_description"
        m.short_description app.fap_description with
    | error e => rfl
    | ok v6 =>
    cases ht : reconcileValue listIsEmpty false "targets" m.targets app.targets with
    | error e => rfl
    | ok v7 =>
      rw [show (!false) = true from rfl,
        reconcileValue_conflict strIsEmpty "version" m.version
          (versionString app.fap_version)
          (by simp [strIsEmpty, h1]) (by simp [strIsEmpty, h2]) h3]
      rfl
  · intro h
    unfold sync_from at h ⊢
    cases hn : reconcileValue strIsEmpty true "name" m.name app.name with
    | error e => rw [hn] at h; exact absurd h (by simp)
    | ok v1 =>
    cases hi : reconcileValue strIsEmpty true "id" m.id app.appid with
    | error e => rw [hn, hi] at h; exact absurd h (by simp)
    | ok v2 =>
    cases hau : reconcileValue strIsEmpty false "author" m.author app.fap_author with
    | error e => rw [hn, hi, hau] at h; exact absurd h (by simp)
    | ok v3 =>
    cases hc : reconcileValue strIsEmpty false "category" m.category app.fap_category with
    | error e => rw [hn, hi, hau, hc] at h; exact absurd h (by simp)
    | ok v4 =>
    cases hic : reconcileValue strIsEmpty false "icon" m.icon app.fap_icon with
    | error e => rw [hn, hi, hau, hc, hic] at h; exact absurd h (by simp)
    | ok v5 =>
    cases hsd : reconcileValue strIsEmpty false "short_description"
        m.short_description app.fap_description with
    | error e => rw [hn, hi, hau, hc, hic, hsd] at h; exact absurd h (by simp)
    | ok v6 =>
    cases ht : reconcileValue listIsEmpty false "targets" m.targets app.targets with
    | error e => rw [hn, hi, hau, hc, hic, hsd, ht] at h; exact absurd h (by simp)
    | ok v7 =>
    cases hv : reconcileValue strIsEmpty (!allow) "version" m.version
        (versionString app.fap_version) with
    | error e => rw [hn, hi, hau, hc, hic, hsd, ht, hv] at h; exact absurd h (by simp)
    | ok v8 =>
      have e1 := reconcileValue_ok_val _ _ _ _ _ _ hn
      have e2 := reconcileValue_ok_val _ _ _ _ _ _ hi
      have e3 := reconcileValue_ok_val _ _ _ _ _ _ hau
      have e4 := reconcileValue_ok_val _ _ _ _ _ _ hc
      have e5 := reconcileValue_ok_val _ _ _ _ _ _ hic
      have e6 := reconcileValue_ok_val _ _ _ _ _ _ hsd
      have e7 := reconcileValue_ok_val _ _ _ _ _ _ ht
      have e8 := reconcileValue_ok_val _ _ _ _ _ _ hv
      subst e1 e2 e3 e4 e5 e6 e7 e8
      simp only [strIsEmpty, listIsEmpty, decide_eq_true_eq, List.isEmpty_eq_true]

/-- Witness for `sync_from_reconciliation_law`: a manifest whose
`name` differs from the build target's non-empty `name` fails
reconciliation. -/
theorem sync_from_reconciliation_law_witness :
    ((sync_from { sourcecode := ⟨"git", []⟩, name := "Alpha" }
        { appid := "alpha", name := "Beta" } false).2).isSome = true :=
  (sync_from_reconciliation_law { sourcecode := ⟨"git", []⟩, name := "Alpha" }
    { appid := "alpha", name := "Beta" } false).1
    (by decide) (by decide) (by decide)

/-- C6: reconciliation is idempotent — when `sync_from` succeeds,
running it again on the resulting manifest against the same build
target succeeds as well and changes no field. -/
theorem sync_from_idempotent (m : ApplicationManifest)
    (app : FlipperApplication) (allow : Bool)
    (h : (sync_from m app allow).2 = none) :
    sync_from ((sync_from m app allow).1) app allow =
      ((sync_from m app allow).1, none) := by
  obtain ⟨sc, nm, idv, au, ver, ic, cat, sd, de, ch, scr, tg⟩ := m
  unfold sync_from at h ⊢
  cases hn : reconcileValue strIsEmpty true "name" nm app.name with
  | error e => rw [hn] at h; exact absurd h (by simp)
  | ok v1 =>
  cases hi : reconcileValue strIsEmpty true "id" idv app.appid with
  | error e => rw [hn, hi] at h; exact absurd h (by simp)
  | ok v2 =>
  cases hau : reconcileValue strIsEmpty false "author" au app.fap_author with
  | error e => rw [hn, hi, hau] at h; exact absurd h (by simp)
  | ok v3 =>
  cases hc : reconcileValue strIsEmpty false "category" cat app.fap_category with
  | error e => rw [hn, hi, hau, hc] at h; exact absurd h (by simp)
  | ok v4 =>
  cases hic : reconcileValue strIsEmpty false "icon" ic app.fap_icon with
  | error e => rw [hn, hi, hau, hc, hic] at h; exact absurd h (by simp)
  | ok v5 =>
  cases hsd : reconcileValue strIsEmpty false "short_description" sd
      app.fap_description with
  | error e => rw [hn, hi, hau, hc, hic, hsd] at h; exact absurd h (by simp)
  | ok v6 =>
  cases ht : reconcileValue listIsEmpty false "targets" tg app.targets with
  | error e => rw [hn, hi, hau, hc, hic, hsd, ht] at h; exact absurd h (by simp)
  | ok v7 =>
  cases hv : reconcileValue strIsEmpty (!allow) "version" ver
      (versionString app.fap_version) with
  | error e => rw [hn, hi, hau, hc, hic, hsd, ht, hv] at h; exact absurd h (by simp)
  | ok v8 =>
    have i1 := reconcileValue_ok_idem _ _ _ _ _ _ hn
    have i2 := reconcileValue_ok_idem _ _ _ _ _ _ hi
    have i3 := reconcileValue_ok_idem _ _ _ _ _ _ hau
    have i4 := reconcileValue_ok_idem _ _ _ _ _ _ hc
    have i5 := reconcileValue_ok_idem _ _ _ _ _ _ hic
    have i6 := reconcileValue_ok_idem _ _ _ _ _ _ hsd
    have i7 := reconcileValue_ok_idem _ _ _ _ _ _ ht
    have i8 := reconcileValue_ok_idem _ _ _ _ _ _ hv
    simp only [i1, i2, i3, i4, i5, i6, i7, i8]

/-- Witness for `sync_from_idempotent`: a second reconciliation of an
already-reconciled empty-fields manifest changes nothing. -/
theorem sync_from_idempotent_witness :
    sync_from ((sync_from { sourcecode := ⟨"git", []⟩ }
        { appid := "alpha", name := "Alpha" } false).1)
      { appid := "alpha", name := "Alpha" } false =
    ((sync_from { sourcecode := ⟨"git", []⟩ }
        { appid := "alpha", name := "Alpha" } false).1, none) :=
  sync_from_idempotent { sourcecode := ⟨"git", []⟩ }
    { appid := "alpha", name := "Alpha" } false (by decide)

/-- C9: `sync_from` mutates only the fields of its field map — the
manifest's `sourcecode`, `screenshots`, `description`, and `changelog`
are unchanged whether reconciliation succeeds or fails. -/
theorem sync_from_frame (m : ApplicationManifest) (app : FlipperApplication)
    (allow : Bool) :
    ((sync_from m app allow).1).sourcecode = m.sourcecode
    ∧ ((sync_from m app allow).1).screenshots = m.screenshots
    ∧ ((sync_from m app allow).1).description = m.description
    ∧ ((sync_from m app allow).1).changelog = m.changelog := by
  refine ⟨?_, ?_, ?_, ?_⟩ <;>
    · unfold sync_from
      repeat' split
      all_goals rfl

end Bundler
